import Mathlib

/-!
Verification of the clipboard-history store (`config.py`, `database.py`).

The Python code is shallowly embedded as follows.

* Strings are Lean `String`s; character-level operations work on `String.data`
  (Python `str` indexing/slicing is by character, matching `List Char`).
* `str.lower`/`str.strip` are modelled on their ASCII fragment
  (`asciiLower`, `pyStrip`): all concrete inputs in this development are ASCII,
  where the Python functions and the models agree, and SQLite's `LIKE`
  case folding is ASCII-only by documented behaviour.
* The SQLite table `clipboard_history` is a `DB`: the rows in insertion
  order, the `AUTOINCREMENT` sequence counter `nextId` (never decreased,
  not reset by `DELETE`), and a logical clock standing for `time.time()`,
  which strictly increases between inserts, so `ORDER BY timestamp DESC`
  is reverse insertion order (proved as `byTimestampDesc_sorted`).
* SQL `LIKE` (default, no `ESCAPE`, `case_sensitive_like` off) is the
  matcher `likeMatch`: `%` matches any sequence, `_` any single character,
  and letters compare ASCII-case-insensitively.
* SQL `LIMIT ? OFFSET ?` with bound integers: a negative limit means no
  bound, a negative offset behaves as zero (documented SQLite behaviour).
* Each Python method is a pure function from a `DB` (and arguments) to a
  result and a new `DB`.
-/

namespace Clipboard

/-- ASCII lowercase folding: the fragment of Python `str.lower` (and of
SQLite's `LIKE` case folding) that acts on ASCII letters. -/
def asciiLower (c : Char) : Char :=
  if 'A' ≤ c ∧ c ≤ 'Z' then Char.ofNat (c.toNat + 32) else c

/-- Whitespace characters stripped by Python `str.strip()` (ASCII fragment). -/
def isPySpace (c : Char) : Bool :=
  c = ' ' || c = '\t' || c = '\n' || c = '\x0d' || c = '\x0b' || c = '\x0c'

/-- Python `str.strip()`: drop leading and trailing whitespace. -/
def pyStrip (s : List Char) : List Char :=
  ((s.dropWhile isPySpace).reverse.dropWhile isPySpace).reverse

/-- `beginsWith p s` is true when `p` is a prefix of `s`
(Python `str.startswith`). -/
def beginsWith : List Char → List Char → Bool
  | [], _ => true
  | _ :: _, [] => false
  | a :: p, b :: s => a == b && beginsWith p s

/-- All suffixes of a list, longest first, ending with `[]`. -/
def suffixes : List Char → List (List Char)
  | [] => [[]]
  | c :: s => (c :: s) :: suffixes s

/-- Substring containment: `needle` occurs contiguously inside `hay`
(Python `in` on strings). -/
def containsSub (needle hay : List Char) : Bool :=
  (suffixes hay).any (fun t => beginsWith needle t)

/-- SQLite `LIKE` pattern matching with the default options: `%` matches any
(possibly empty) character sequence, `_` matches exactly one character, and
other characters compare ASCII-case-insensitively. -/
def likeMatch : List Char → List Char → Bool
  | [], s => s.isEmpty
  | a :: p, s =>
    if a = '%' then (suffixes s).any (fun t => likeMatch p t)
    else
      match s with
      | [] => false
      | c :: s2 => (a == '_' || asciiLower a == asciiLower c) && likeMatch p s2

namespace Config

/-- `Config.MAX_PREVIEW_LENGTH` from `config.py`. -/
def MAX_PREVIEW_LENGTH : Nat := 100

/-- `Config.DUPLICATE_CHECK_ENABLED` from `config.py`. -/
def DUPLICATE_CHECK_ENABLED : Bool := true

/-- `Config.BATCH_SIZE` from `config.py`. -/
def BATCH_SIZE : Nat := 50

/-- `Config.MAX_CONTENT_LENGTH` from `config.py`. -/
def MAX_CONTENT_LENGTH : Nat := 1000000

/-- `Config.SEARCH_MIN_LENGTH` from `config.py`. -/
def SEARCH_MIN_LENGTH : Nat := 2

end Config

namespace ContentType

/-- `ContentType.TEXT`. -/
def TEXT : String := "text"

/-- `ContentType.URL`. -/
def URL : String := "url"

/-- `ContentType.CODE`. -/
def CODE : String := "code"

/-- `ContentType.UNKNOWN`. -/
def UNKNOWN : String := "unknown"

/-- The `code_indicators` list from `ContentType.detect`. -/
def code_indicators : List (List Char) :=
  ["def ", "class ", "import ", "function ", "const ", "var "].map String.data

/-- The URL test of `ContentType.detect`:
`content_lower.startswith(('http://', 'https://', 'ftp://'))`. -/
def urlCheck (content_lower : List Char) : Bool :=
  beginsWith "http://".data content_lower ||
  beginsWith "https://".data content_lower ||
  beginsWith "ftp://".data content_lower

/-- `ContentType.detect` from `config.py`: empty content is `unknown`;
otherwise `content_lower = content.lower().strip()` (written out at each
use below) is tested: an URL prefix gives `url`, a code indicator substring
gives `code`, and anything else is `text`. -/
def detect (content : String) : String :=
  if content.data = [] then UNKNOWN
  else if urlCheck (pyStrip (content.data.map asciiLower)) then URL
  else if code_indicators.any
      (fun ind => containsSub ind (pyStrip (content.data.map asciiLower))) then CODE
  else TEXT

end ContentType

/-- One row of the `clipboard_history` table. -/
structure Row where
  id : Nat
  content : String
  content_type : String
  timestamp : Nat
  char_count : Nat
  preview : String
  is_favorite : Int
  created_at : Nat
deriving DecidableEq, Repr

/-- The persisted state: rows in insertion order, the `AUTOINCREMENT`
sequence value (the id the next insert receives), and a logical clock
modelling `time.time()`, which strictly increases between inserts. -/
structure DB where
  rows : List Row
  nextId : Nat
  clock : Nat
deriving DecidableEq, Repr

/-- The rows as returned by `ORDER BY timestamp DESC`: timestamps strictly
increase in insertion order (invariant `WF`), so this is reverse insertion
order; `byTimestampDesc_sorted` proves the ordering. -/
def byTimestampDesc (db : DB) : List Row :=
  db.rows.reverse

/-- `DatabaseManager._generate_preview`: truncate to `MAX_PREVIEW_LENGTH`
characters, append `"..."` when the content was longer, then replace every
newline by a space. -/
def generate_preview (content : String) : String :=
  ⟨(if content.data.length > Config.MAX_PREVIEW_LENGTH
      then content.data.take Config.MAX_PREVIEW_LENGTH ++ "...".data
      else content.data.take Config.MAX_PREVIEW_LENGTH).map
    (fun c => if c = '\n' then ' ' else c)⟩

/-- `DatabaseManager._is_duplicate`: compare against the content of the row
returned by `SELECT content ... ORDER BY timestamp DESC LIMIT 1`. -/
def is_duplicate (db : DB) (content : String) : Bool :=
  match (byTimestampDesc db).head? with
  | none => false
  | some r => r.content == content

/-- `DatabaseManager.add_clipboard_item`: reject empty or over-long content,
then (when requested and enabled) reject a consecutive duplicate, otherwise
insert a fresh row carrying the detected type, preview, character count,
current time, id `nextId`, and `is_favorite = 0` (the column default). -/
def add_clipboard_item (db : DB) (content : String) (check_duplicate : Bool) :
    Option Nat × DB :=
  if content.data = [] ∨ content.data.length > Config.MAX_CONTENT_LENGTH then (none, db)
  else if check_duplicate && Config.DUPLICATE_CHECK_ENABLED && is_duplicate db content then
    (none, db)
  else
    let row : Row :=
      ⟨db.nextId, content, ContentType.detect content, db.clock,
       content.data.length, generate_preview content, 0, db.clock⟩
    (some db.nextId, ⟨db.rows ++ [row], db.nextId + 1, db.clock + 1⟩)

/-- `DatabaseManager.get_all_items`: `ORDER BY timestamp DESC LIMIT ? OFFSET ?`.
SQLite treats a negative bound limit as "no limit" and a negative offset as
zero; `Int.toNat` realises the latter. -/
def get_all_items (db : DB) (limit offset : Int) : List Row :=
  if limit < 0 then (byTimestampDesc db).drop offset.toNat
  else ((byTimestampDesc db).drop offset.toNat).take limit.toNat

/-- The `LIKE` pattern `f'%{keyword}%'` built by `search_items`. -/
def likePattern (keyword : String) : List Char :=
  '%' :: keyword.data ++ ['%']

/-- `DatabaseManager.search_items`: short keywords give `[]`; otherwise the
rows whose content matches `LIKE '%keyword%'`, newest first, `LIMIT ?`
(negative meaning unbounded, as in `get_all_items`). -/
def search_items (db : DB) (keyword : String) (limit : Int) : List Row :=
  if keyword.data.length < Config.SEARCH_MIN_LENGTH then []
  else if limit < 0 then
    (byTimestampDesc db).filter (fun r => likeMatch (likePattern keyword) r.content.data)
  else
    ((byTimestampDesc db).filter
      (fun r => likeMatch (likePattern keyword) r.content.data)).take limit.toNat

/-- `DatabaseManager.delete_item`: `DELETE ... WHERE id = ?`; returns whether
a row was removed (`cursor.rowcount > 0`). -/
def delete_item (db : DB) (item_id : Nat) : Bool × DB :=
  let remaining := db.rows.filter (fun r => r.id != item_id)
  (decide (remaining.length < db.rows.length), ⟨remaining, db.nextId, db.clock⟩)

/-- `DatabaseManager.clear_all`: count the rows, delete them all, return the
count. `DELETE FROM` does not reset the `AUTOINCREMENT` sequence. -/
def clear_all (db : DB) : Nat × DB :=
  (db.rows.length, ⟨[], db.nextId, db.clock⟩)

/-- The row update performed by
`UPDATE clipboard_history SET is_favorite = 1 - is_favorite WHERE id = ?`. -/
def flipRow (r : Row) : Row :=
  ⟨r.id, r.content, r.content_type, r.timestamp, r.char_count, r.preview,
   1 - r.is_favorite, r.created_at⟩

/-- The row list after the `UPDATE` statement of `toggle_favorite`. -/
def toggledRows (db : DB) (item_id : Nat) : List Row :=
  db.rows.map (fun r => if r.id = item_id then flipRow r else r)

/-- `DatabaseManager.toggle_favorite`: run the update above, re-select the
row, and return `bool(is_favorite)` of the updated row (`False` when the id
does not exist). -/
def toggle_favorite (db : DB) (item_id : Nat) : Bool × DB :=
  match (toggledRows db item_id).find? (fun r => r.id == item_id) with
  | some r => (r.is_favorite != 0, ⟨toggledRows db item_id, db.nextId, db.clock⟩)
  | none => (false, ⟨toggledRows db item_id, db.nextId, db.clock⟩)

/-- The result of `DatabaseManager.get_statistics`: the total row count and
the `GROUP BY content_type` counts (the dict modelled as an association
list over the distinct types in first-appearance order). -/
structure Stats where
  total_items : Nat
  by_type : List (String × Nat)
deriving DecidableEq, Repr

/-- The `GROUP BY content_type` result: one `(type, count)` pair for each
distinct `content_type` value present among the rows. -/
def typeCounts (db : DB) : List (String × Nat) :=
  ((db.rows.map (fun r => r.content_type)).dedup).map
    (fun t => (t, db.rows.countP (fun r => r.content_type == t)))

/-- `DatabaseManager.get_statistics`: `COUNT(*)` and
`SELECT content_type, COUNT(*) ... GROUP BY content_type`; groups exist only
for values present among the rows. -/
def get_statistics (db : DB) : Stats :=
  ⟨db.rows.length, typeCounts db⟩

/-- The public operations of `DatabaseManager`, as trace elements. -/
inductive Op where
  | add (content : String) (check_duplicate : Bool)
  | del (item_id : Nat)
  | clear
  | toggle (item_id : Nat)
  | list (limit offset : Int)
  | search (keyword : String) (limit : Int)
  | stats
deriving DecidableEq, Repr

/-- The state effect of one operation (read-only operations leave the state
unchanged). -/
def applyOp (db : DB) : Op → DB
  | .add c chk => (add_clipboard_item db c chk).2
  | .del i => (delete_item db i).2
  | .clear => (clear_all db).2
  | .toggle i => (toggle_favorite db i).2
  | .list _ _ => db
  | .search _ _ => db
  | .stats => db

/-- The freshly initialised store: no rows, the first `AUTOINCREMENT` id
is 1, the clock starts at 0. -/
def initDB : DB := ⟨[], 1, 0⟩

/-- Run a trace of operations. -/
def run (db : DB) : List Op → DB
  | [] => db
  | op :: ops => run (applyOp db op) ops

/-- States reachable from the fresh store through the public operations. -/
def Reachable (db : DB) : Prop :=
  ∃ ops, run initDB ops = db

/-- The id returned when the operation is a successful insert. -/
def addResult (db : DB) (op : Op) : Option Nat :=
  match op with
  | .add c chk => (add_clipboard_item db c chk).1
  | _ => none

/-- The ids handed out by the successful inserts of a trace, in order. -/
def assignedIds (db : DB) : List Op → List Nat
  | [] => []
  | op :: ops =>
    match addResult db op with
    | some i => i :: assignedIds (applyOp db op) ops
    | none => assignedIds (applyOp db op) ops

/-- Structural invariant of the store: ids and timestamps strictly increase
in insertion order, every id is below the sequence counter, every timestamp
below the clock, and `is_favorite` is the integer encoding of a boolean. -/
def WF (db : DB) : Prop :=
  db.rows.Pairwise (fun a b => a.id < b.id ∧ a.timestamp < b.timestamp) ∧
  ∀ r ∈ db.rows, r.id < db.nextId ∧ r.timestamp < db.clock ∧
    (r.is_favorite = 0 ∨ r.is_favorite = 1)

/-- The row built by a successful `add_clipboard_item` on state `db`. -/
def newRow (db : DB) (content : String) : Row :=
  ⟨db.nextId, content, ContentType.detect content, db.clock,
   content.data.length, generate_preview content, 0, db.clock⟩

/-- Case-sensitive literal-substring search, the reading of
"contains `keyword` as a case-sensitive, unanchored literal substring,
ordered by `timestamp` descending, capped at `limit`" taken by the
specification; compared against `search_items` (which runs SQL `LIKE`). -/
def specSearchCS (db : DB) (keyword : String) (limit : Int) : List Row :=
  ((byTimestampDesc db).filter
    (fun r => containsSub keyword.data r.content.data)).take limit.toNat

/-- The specification's reading of the code test of the classifier: the
case-insensitive content (not stripped of surrounding whitespace) contains
some code indicator. Compared against `ContentType.detect`, which tests the
stripped form. -/
def specCodeClaim (content : String) : Bool :=
  ContentType.code_indicators.any
    (fun ind => containsSub ind (content.data.map asciiLower))

/-- The specification's description of the preview: truncate to
`MAX_PREVIEW_LENGTH` characters, append `"..."` exactly when the content was
longer, then replace every newline by one space. -/
def specPreview (content : String) : String :=
  ⟨(if Config.MAX_PREVIEW_LENGTH < content.data.length
      then content.data.take Config.MAX_PREVIEW_LENGTH ++ "...".data
      else content.data.take Config.MAX_PREVIEW_LENGTH).map
    (fun c => if c = '\n' then ' ' else c)⟩

/-! ### Sample states used by counterexamples and witnesses -/

/-- A sample row holding content `"abc"`. -/
def sampleRow1 : Row := ⟨1, "abc", "text", 0, 3, "abc", 0, 0⟩

/-- A sample row holding content `"say ABC"`. -/
def sampleRow2 : Row := ⟨2, "say ABC", "text", 1, 7, "say ABC", 0, 1⟩

/-- A one-row sample store. -/
def sampleDB1 : DB := ⟨[sampleRow1], 2, 1⟩

/-- A two-row sample store. -/
def sampleDB2 : DB := ⟨[sampleRow1, sampleRow2], 3, 2⟩

/-! ### The LIKE matcher on `'%' ++ keyword ++ '%'` patterns -/

/-- Unfolding of `likeMatch` at a leading `%`. -/
theorem likeMatch_pct (p s : List Char) :
    likeMatch ('%' :: p) s = (suffixes s).any (fun t => likeMatch p t) := by
  simp [likeMatch]

/-- A bare `%` pattern matches every string. -/
theorem likeMatch_pct_nil (s : List Char) : likeMatch ['%'] s = true := by
  induction s with
  | nil => rfl
  | cons c s ih =>
    rw [likeMatch_pct] at ih ⊢
    simp only [suffixes, List.any_cons, ih, Bool.or_true]

/-- A wildcard-free pattern followed by `%` matches exactly the strings that
begin with the pattern, ASCII-case-insensitively. -/
theorem likeMatch_lit :
    ∀ p : List Char, (∀ c ∈ p, c ≠ '%' ∧ c ≠ '_') →
      ∀ s, likeMatch (p ++ ['%']) s =
        beginsWith (p.map asciiLower) (s.map asciiLower) := by
  intro p
  induction p with
  | nil =>
    intro _ s
    simp [likeMatch_pct_nil, beginsWith]
  | cons a p ih =>
    intro hp s
    have ha := hp a (List.mem_cons_self a p)
    cases s with
    | nil => simp [likeMatch, ha.1, beginsWith]
    | cons c s2 =>
      have ih2 := ih (fun x hx => hp x (List.mem_cons_of_mem a hx)) s2
      have hu : (a == '_') = false := by simp [ha.2]
      simp [likeMatch, ha.1, hu, beginsWith, ih2]

/-- `suffixes` commutes with character-wise mapping. -/
theorem suffixes_map (f : Char → Char) :
    ∀ s : List Char, suffixes (s.map f) = (suffixes s).map (List.map f) := by
  intro s
  induction s with
  | nil => rfl
  | cons c s ih => simp [suffixes, ih]

/-- For a keyword without `%` and `_`, the pattern `'%' ++ keyword ++ '%'`
matches exactly the strings containing the keyword as an
ASCII-case-insensitive substring. -/
theorem likeMatch_pattern_sub (kw : List Char) (hkw : ∀ c ∈ kw, c ≠ '%' ∧ c ≠ '_')
    (s : List Char) :
    likeMatch ('%' :: (kw ++ ['%'])) s =
      containsSub (kw.map asciiLower) (s.map asciiLower) := by
  rw [likeMatch_pct]
  unfold containsSub
  rw [suffixes_map, List.any_map]
  simp only [likeMatch_lit kw hkw, Function.comp_def]

/-! ### Shape lemmas for the operations -/

/-- An insert either leaves the state unchanged and returns no id, or appends
one fresh row and returns its id. -/
theorem add_cases (db : DB) (c : String) (chk : Bool) :
    add_clipboard_item db c chk = (none, db) ∨
    add_clipboard_item db c chk =
      (some db.nextId, ⟨db.rows ++ [newRow db c], db.nextId + 1, db.clock + 1⟩) := by
  unfold add_clipboard_item
  split
  · exact Or.inl rfl
  split
  · exact Or.inl rfl
  · exact Or.inr rfl

/-- Empty or over-long content is rejected with the state unchanged. -/
theorem add_invalid (db : DB) (c : String) (chk : Bool)
    (h : c.data = [] ∨ c.data.length > Config.MAX_CONTENT_LENGTH) :
    add_clipboard_item db c chk = (none, db) := by
  unfold add_clipboard_item
  rw [if_pos h]

/-- Valid content equal to the latest row's content is rejected with the
state unchanged when duplicate checking is requested. -/
theorem add_dup (db : DB) (c : String) (hd : is_duplicate db c = true) :
    add_clipboard_item db c true = (none, db) := by
  unfold add_clipboard_item
  split
  · rfl
  rw [if_pos]
  simp [hd, Config.DUPLICATE_CHECK_ENABLED]

/-- Valid, non-duplicate content is inserted as a fresh row at the end. -/
theorem add_success (db : DB) (c : String)
    (h0 : c.data ≠ []) (h1 : c.data.length ≤ Config.MAX_CONTENT_LENGTH)
    (hd : is_duplicate db c = false) :
    add_clipboard_item db c true =
      (some db.nextId, ⟨db.rows ++ [newRow db c], db.nextId + 1, db.clock + 1⟩) := by
  have hc : ¬(c.data = [] ∨ c.data.length > Config.MAX_CONTENT_LENGTH) := by
    simp only [not_or]
    exact ⟨h0, by omega⟩
  have hb : ¬((true && Config.DUPLICATE_CHECK_ENABLED && is_duplicate db c) = true) := by
    simp [hd, Config.DUPLICATE_CHECK_ENABLED]
  unfold add_clipboard_item
  rw [if_neg hc, if_neg hb]
  rfl

/-- The state part of `toggle_favorite`: the row with the given id (if any)
has its `is_favorite` flipped; `nextId` and the clock are untouched. -/
theorem toggle_snd (db : DB) (i : Nat) :
    (toggle_favorite db i).2 = ⟨toggledRows db i, db.nextId, db.clock⟩ := by
  unfold toggle_favorite
  split <;> rfl

/-- The update function of `toggle_favorite` keeps ids. -/
theorem toggleFn_id (i : Nat) (r : Row) :
    (if r.id = i then flipRow r else r).id = r.id := by
  split <;> rfl

/-- The update function of `toggle_favorite` keeps timestamps. -/
theorem toggleFn_timestamp (i : Nat) (r : Row) :
    (if r.id = i then flipRow r else r).timestamp = r.timestamp := by
  split <;> rfl

/-- The re-select inside `toggle_favorite` finds the flipped image of the
targeted row when ids are distinct. -/
theorem find_map_toggle (i : Nat) :
    ∀ l : List Row, l.Pairwise (fun a b => a.id ≠ b.id) →
      ∀ r ∈ l, r.id = i →
        (l.map (fun s => if s.id = i then flipRow s else s)).find?
            (fun s => s.id == i) = some (flipRow r) := by
  intro l
  induction l with
  | nil => intro _ r hr; cases hr
  | cons a t ih =>
    intro hnd r hr hid
    rw [List.pairwise_cons] at hnd
    rcases List.mem_cons.1 hr with rfl | hr
    · rw [List.map_cons, if_pos hid, List.find?_cons_of_pos]
      simp [flipRow, hid]
    · have hai : a.id ≠ i := by
        rw [← hid]
        exact hnd.1 r hr
      rw [List.map_cons, if_neg hai, List.find?_cons_of_neg]
      · exact ih hnd.2 r hr hid
      · simp [hai]

/-- `toggle_favorite` on a present id, with distinct ids: the result is the
boolean form of the flipped flag, and the state has exactly that row
updated. -/
theorem toggle_found (db : DB) (i : Nat) (r : Row)
    (hnd : db.rows.Pairwise (fun a b => a.id ≠ b.id))
    (hr : r ∈ db.rows) (hid : r.id = i) :
    toggle_favorite db i =
      ((1 - r.is_favorite) != 0, ⟨toggledRows db i, db.nextId, db.clock⟩) := by
  have hf : (toggledRows db i).find? (fun s => s.id == i) = some (flipRow r) := by
    unfold toggledRows
    exact find_map_toggle i db.rows hnd r hr hid
  unfold toggle_favorite
  simp only [hf]
  rfl

/-- `toggle_favorite` on an absent id returns `false` and leaves the state
unchanged. -/
theorem toggle_missing (db : DB) (i : Nat) (h : ∀ r ∈ db.rows, r.id ≠ i) :
    toggle_favorite db i = (false, db) := by
  have hmap : toggledRows db i = db.rows := by
    unfold toggledRows
    have hcg := List.map_congr_left (l := db.rows)
      (f := fun r => if r.id = i then flipRow r else r) (g := id)
      (fun a ha => if_neg (h a ha))
    rw [hcg, List.map_id]
  have hfind : (toggledRows db i).find? (fun r => r.id == i) = none := by
    rw [hmap, List.find?_eq_none]
    intro x hx
    simp [h x hx]
  unfold toggle_favorite
  simp only [hfind]
  rw [hmap]

/-! ### Preservation of the structural invariant -/

/-- The fresh store is well-formed. -/
theorem WF_initDB : WF initDB := by
  constructor <;> simp [initDB]

/-- Insertion preserves well-formedness. -/
theorem WF_add (db : DB) (c : String) (chk : Bool) (h : WF db) :
    WF (add_clipboard_item db c chk).2 := by
  rcases add_cases db c chk with hc | hc
  · rw [hc]
    exact h
  · rw [hc]
    obtain ⟨h1, h2⟩ := h
    constructor
    · rw [List.pairwise_append]
      refine ⟨h1, by simp, ?_⟩
      intro a ha b hb
      rw [List.mem_singleton] at hb
      subst hb
      exact ⟨(h2 a ha).1, (h2 a ha).2.1⟩
    · intro r hr
      rcases List.mem_append.1 hr with hr | hr
      · obtain ⟨ha, hb, hc2⟩ := h2 r hr
        exact ⟨Nat.lt_succ_of_lt ha, Nat.lt_succ_of_lt hb, hc2⟩
      · rw [List.mem_singleton] at hr
        subst hr
        refine ⟨Nat.lt_succ_self _, Nat.lt_succ_self _, Or.inl rfl⟩

/-- Deletion preserves well-formedness. -/
theorem WF_del (db : DB) (i : Nat) (h : WF db) : WF (delete_item db i).2 := by
  obtain ⟨h1, h2⟩ := h
  constructor
  · exact List.Pairwise.filter _ h1
  · intro r hr
    exact h2 r (List.mem_of_mem_filter hr)

/-- Clearing preserves well-formedness. -/
theorem WF_clear (db : DB) (h : WF db) : WF (clear_all db).2 := by
  constructor <;> simp [clear_all]

/-- Toggling preserves well-formedness. -/
theorem WF_toggle (db : DB) (i : Nat) (h : WF db) : WF (toggle_favorite db i).2 := by
  obtain ⟨h1, h2⟩ := h
  rw [toggle_snd]
  unfold toggledRows
  constructor
  · rw [List.pairwise_map]
    simp only [toggleFn_id, toggleFn_timestamp]
    exact h1
  · intro r hr
    rw [List.mem_map] at hr
    obtain ⟨a, ha, rfl⟩ := hr
    obtain ⟨hb, hc, hd⟩ := h2 a ha
    refine ⟨by rw [toggleFn_id]; exact hb, by rw [toggleFn_timestamp]; exact hc, ?_⟩
    rcases hd with hd | hd <;> split <;> simp [flipRow, hd]

/-- Every operation preserves well-formedness. -/
theorem WF_applyOp (db : DB) (op : Op) (h : WF db) : WF (applyOp db op) := by
  cases op with
  | add c chk => exact WF_add db c chk h
  | del i => exact WF_del db i h
  | clear => exact WF_clear db h
  | toggle i => exact WF_toggle db i h
  | list l o => exact h
  | search k l => exact h
  | stats => exact h

/-- Running a trace preserves well-formedness. -/
theorem WF_run : ∀ (ops : List Op) (db : DB), WF db → WF (run db ops) := by
  intro ops
  induction ops with
  | nil => intro db h; exact h
  | cons op ops ih => intro db h; exact ih (applyOp db op) (WF_applyOp db op h)

/-- Every reachable state is well-formed. -/
theorem reachable_WF (db : DB) (h : Reachable db) : WF db := by
  obtain ⟨ops, rfl⟩ := h
  exact WF_run ops initDB WF_initDB

/-- In a well-formed state, `ORDER BY timestamp DESC` yields rows with
strictly decreasing timestamps. -/
theorem byTimestampDesc_sorted (db : DB) (h : WF db) :
    (byTimestampDesc db).Pairwise (fun a b => b.timestamp < a.timestamp) := by
  unfold byTimestampDesc
  rw [List.pairwise_reverse]
  exact h.1.imp (fun hab => hab.2)

/-- In a well-formed state, ids are pairwise distinct. -/
theorem WF_ids_distinct (db : DB) (h : WF db) :
    db.rows.Pairwise (fun a b => a.id ≠ b.id) :=
  h.1.imp (fun hab => Nat.ne_of_lt hab.1)

/-! ### The latest row after an insert -/

/-- After a valid insert (accepted or rejected as a duplicate), the row with
the greatest timestamp holds exactly the inserted content. -/
theorem add_latest (db : DB) (c : String)
    (h0 : c.data ≠ []) (h1 : c.data.length ≤ Config.MAX_CONTENT_LENGTH) :
    ∃ r, (byTimestampDesc (add_clipboard_item db c true).2).head? = some r ∧
      r.content = c := by
  rcases hdup : is_duplicate db c with hF | hT
  · rw [add_success db c h0 h1 hdup]
    refine ⟨newRow db c, ?_, rfl⟩
    simp [byTimestampDesc]
  · rw [add_dup db c hdup]
    unfold is_duplicate at hdup
    rcases hh : (byTimestampDesc db).head? with _ | r
    · rw [hh] at hdup
      simp at hdup
    · rw [hh] at hdup
      simp at hdup
      exact ⟨r, rfl, hdup⟩

/-! ### Monotonicity of the id sequence -/

/-- No operation ever decreases the `AUTOINCREMENT` counter. -/
theorem applyOp_nextId (db : DB) (op : Op) : db.nextId ≤ (applyOp db op).nextId := by
  cases op with
  | add c chk =>
    rcases add_cases db c chk with hc | hc <;> simp [applyOp, hc]
  | del i => exact Nat.le_refl _
  | clear => exact Nat.le_refl _
  | toggle i => simp [applyOp, toggle_snd]
  | list l o => exact Nat.le_refl _
  | search k l => exact Nat.le_refl _
  | stats => exact Nat.le_refl _

/-- A successful insert returns exactly the current counter value and bumps
the counter by one. -/
theorem addResult_eq (db : DB) (op : Op) (i : Nat) (h : addResult db op = some i) :
    i = db.nextId ∧ (applyOp db op).nextId = db.nextId + 1 := by
  cases op with
  | add c chk =>
    rcases add_cases db c chk with hc | hc
    · rw [addResult, hc] at h
      cases h
    · rw [addResult, hc] at h
      simp at h
      subst h
      simp [applyOp, hc]
  | del j => cases h
  | clear => cases h
  | toggle j => cases h
  | list l o => cases h
  | search k l => cases h
  | stats => cases h

/-- Along any trace, the ids handed out by successful inserts are all at
least the starting counter value and strictly increase. -/
theorem assignedIds_spec :
    ∀ (ops : List Op) (db : DB),
      (assignedIds db ops).Pairwise (fun a b => a < b) ∧
      ∀ i ∈ assignedIds db ops, db.nextId ≤ i := by
  intro ops
  induction ops with
  | nil => intro db; simp [assignedIds]
  | cons op ops ih =>
    intro db
    obtain ⟨p, b⟩ := ih (applyOp db op)
    rcases hres : addResult db op with _ | i
    · rw [assignedIds, hres]
      exact ⟨p, fun i hi => Nat.le_trans (applyOp_nextId db op) (b i hi)⟩
    · obtain ⟨rfl, hnext⟩ := addResult_eq db op i hres
      rw [assignedIds, hres]
      constructor
      · rw [List.pairwise_cons]
        refine ⟨fun j hj => ?_, p⟩
        have := b j hj
        omega
      · intro k hk
        rcases List.mem_cons.1 hk with rfl | hk
        · exact Nat.le_refl _
        · have := b k hk
          omega

/-- The one-row sample store is well-formed. -/
theorem WF_sampleDB1 : WF sampleDB1 := ⟨by decide, by decide⟩

/-- The two-row sample store is well-formed. -/
theorem WF_sampleDB2 : WF sampleDB2 := ⟨by decide, by decide⟩

/-! ### C1: keyword search -/

/-- C1, counterexample: the claim reads the search as **case-sensitive**
literal substring containment (`specSearchCS`), but on a store holding
`"abc"` the code's search for `"AB"` — SQL `LIKE`, ASCII-case-insensitive by
default — returns the row while the claimed semantics returns nothing. -/
theorem C1_search_case_counterexample :
    search_items sampleDB1 "AB" 10 = [sampleRow1] ∧
    specSearchCS sampleDB1 "AB" 10 = [] := by
  decide

/-- C1, amended: for a keyword of length at least `SEARCH_MIN_LENGTH`
containing no `LIKE` wildcard (`%`, `_`), a nonnegative limit, and a
well-formed store, `search_items` returns exactly the records whose content
contains the keyword as an ASCII-case-insensitive unanchored substring,
ordered by timestamp descending and capped at `limit`. -/
theorem C1_search_items_spec (db : DB) (keyword : String) (limit : Int)
    (hWF : WF db) (hk : Config.SEARCH_MIN_LENGTH ≤ keyword.data.length)
    (hkw : ∀ c ∈ keyword.data, c ≠ '%' ∧ c ≠ '_') (hl : 0 ≤ limit) :
    search_items db keyword limit =
      ((byTimestampDesc db).filter
        (fun r => containsSub (keyword.data.map asciiLower)
          (r.content.data.map asciiLower))).take limit.toNat ∧
    (search_items db keyword limit).Pairwise
      (fun a b => b.timestamp < a.timestamp) := by
  have heq : search_items db keyword limit =
      ((byTimestampDesc db).filter
        (fun r => containsSub (keyword.data.map asciiLower)
          (r.content.data.map asciiLower))).take limit.toNat := by
    unfold search_items
    rw [if_neg (not_lt.2 hk), if_neg (not_lt.2 hl)]
    congr 1
    apply List.filter_congr
    intro r _
    unfold likePattern
    exact likeMatch_pattern_sub keyword.data hkw r.content.data
  refine ⟨heq, ?_⟩
  rw [heq]
  exact List.Pairwise.sublist
    ((List.take_sublist _ _).trans (List.filter_sublist _))
    (byTimestampDesc_sorted db hWF)

/-- C1, witness: on the two-row sample store, searching `"bc"` finds both
`"say ABC"` (case-insensitively) and `"abc"`, newest first. -/
theorem C1_search_items_spec_witness :
    search_items sampleDB2 "bc" 5 = [sampleRow2, sampleRow1] := by
  have h := C1_search_items_spec sampleDB2 "bc" 5 WF_sampleDB2
    (by decide) (by decide) (by decide)
  rw [h.1]
  decide

/-! ### C2: content classification -/

/-- C2, counterexample: `"x def "` is non-empty and no URL; its
case-insensitive content contains the indicator `"def "`, so the claim
predicts `code` — but the code strips trailing whitespace before the
containment test and returns `text`. -/
theorem C2_detect_untrimmed_counterexample :
    ContentType.detect "x def " = ContentType.TEXT ∧
    specCodeClaim "x def " = true ∧
    "x def ".data.isEmpty = false ∧
    ContentType.urlCheck (pyStrip ("x def ".data.map asciiLower)) = false := by
  decide

/-- C2, amended: for non-empty content whose lowercased, stripped form has
no URL prefix, `detect` returns `code` iff the **trimmed**, case-insensitive
content contains one of the code indicator substrings, and otherwise
returns `text` (URL first, then code, then text; first match wins). -/
theorem C2_detect_code_classification (c : String)
    (h0 : c.data ≠ [])
    (hurl : ContentType.urlCheck (pyStrip (c.data.map asciiLower)) = false) :
    (ContentType.detect c = ContentType.CODE ↔
      ContentType.code_indicators.any
        (fun ind => containsSub ind (pyStrip (c.data.map asciiLower))) = true) ∧
    (ContentType.detect c = ContentType.CODE ∨
      ContentType.detect c = ContentType.TEXT) := by
  unfold ContentType.detect
  rw [if_neg h0, if_neg (by simp [hurl])]
  by_cases hany : ContentType.code_indicators.any
      (fun ind => containsSub ind (pyStrip (c.data.map asciiLower))) = true
  · rw [if_pos hany]
    exact ⟨iff_of_true rfl hany, Or.inl rfl⟩
  · rw [if_neg hany]
    exact ⟨iff_of_false (by decide) hany, Or.inr rfl⟩

/-- C2, witness: `"def f():"` is classified `code` and `"hello"` is
classified `text`. -/
theorem C2_detect_code_classification_witness :
    ContentType.detect "def f():" = ContentType.CODE ∧
    ContentType.detect "hello" = ContentType.TEXT := by
  have h1 := C2_detect_code_classification "def f():" (by decide) (by decide)
  have h2 := C2_detect_code_classification "hello" (by decide) (by decide)
  refine ⟨h1.1.mpr (by decide), ?_⟩
  rcases h2.2 with h | h
  · exact absurd (h2.1.mp h) (by decide)
  · exact h

/-! ### C3: consecutive-duplicate filter -/

/-- C3: with duplicate checking requested (and enabled by configuration),
content equal to the most-recently-timestamped record is rejected without a
record and without changing the state; and the insert-X, insert-Y, insert-X
sequence accepts the second and third inserts while an immediate X-X repeat
rejects the second. -/
theorem C3_consecutive_duplicate_filter (db : DB) (x y : String)
    (hx0 : x.data ≠ []) (hx1 : x.data.length ≤ Config.MAX_CONTENT_LENGTH)
    (hy0 : y.data ≠ []) (hy1 : y.data.length ≤ Config.MAX_CONTENT_LENGTH)
    (hxy : x ≠ y) :
    (∀ r, (byTimestampDesc db).head? = some r → r.content = x →
        add_clipboard_item db x true = (none, db)) ∧
    (add_clipboard_item (add_clipboard_item db x true).2 x true).1 = none ∧
    (add_clipboard_item (add_clipboard_item db x true).2 y true).1.isSome = true ∧
    (add_clipboard_item
      (add_clipboard_item (add_clipboard_item db x true).2 y true).2
      x true).1.isSome = true := by
  have hdup_eq : ∀ (d : DB) (c : String) (r : Row),
      (byTimestampDesc d).head? = some r → r.content = c →
      is_duplicate d c = true := by
    intro d c r hh hc
    unfold is_duplicate
    rw [hh]
    simp [hc]
  have hdup_ne : ∀ (d : DB) (c : String) (r : Row),
      (byTimestampDesc d).head? = some r → r.content ≠ c →
      is_duplicate d c = false := by
    intro d c r hh hc
    unfold is_duplicate
    rw [hh]
    simp [hc]
  obtain ⟨r1, hr1, hr1c⟩ := add_latest db x hx0 hx1
  refine ⟨?_, ?_, ?_, ?_⟩
  · intro r hh hc
    exact add_dup db x (hdup_eq db x r hh hc)
  · rw [add_dup _ x (hdup_eq _ x r1 hr1 hr1c)]
  · rw [add_success _ y hy0 hy1 (hdup_ne _ y r1 hr1 (by rw [hr1c]; exact hxy))]
    rfl
  · obtain ⟨r2, hr2, hr2c⟩ :=
      add_latest (add_clipboard_item db x true).2 y hy0 hy1
    rw [add_success _ x hx0 hx1
      (hdup_ne _ x r2 hr2 (by rw [hr2c]; exact fun h => hxy h.symm))]
    rfl

/-- C3, witness: on the fresh store, `a`, `a` rejects the repeat; `a`, `b`,
`a` accepts all of the second and third inserts. -/
theorem C3_consecutive_duplicate_filter_witness :
    (add_clipboard_item (add_clipboard_item initDB "a" true).2 "a" true).1 = none ∧
    (add_clipboard_item (add_clipboard_item initDB "a" true).2 "b" true).1.isSome = true ∧
    (add_clipboard_item
      (add_clipboard_item (add_clipboard_item initDB "a" true).2 "b" true).2
      "a" true).1.isSome = true := by
  have h := C3_consecutive_duplicate_filter initDB "a" "b"
    (by decide) (by decide) (by decide) (by decide) (by decide)
  exact ⟨h.2.1, h.2.2.1, h.2.2.2⟩

/-! ### C4: content validation -/

/-- C4: empty or over-long content is rejected with no record and an
unchanged store, so in particular the record count is unchanged. -/
theorem C4_add_rejects_invalid_content (db : DB) (c : String) (chk : Bool)
    (h : c.data = [] ∨ c.data.length > Config.MAX_CONTENT_LENGTH) :
    add_clipboard_item db c chk = (none, db) ∧
    (add_clipboard_item db c chk).2.rows.length = db.rows.length := by
  have he := add_invalid db c chk h
  exact ⟨he, by rw [he]⟩

/-- C4, witness: inserting the empty string into the fresh store returns no
record and leaves the store unchanged. -/
theorem C4_add_rejects_invalid_content_witness :
    add_clipboard_item initDB "" true = (none, initDB) ∧
    (add_clipboard_item initDB "" true).2.rows.length = initDB.rows.length :=
  C4_add_rejects_invalid_content initDB "" true (Or.inl rfl)

/-! ### C5: preview computation -/

/-- C5: the preview is the content truncated to `MAX_PREVIEW_LENGTH`
characters, with `"..."` appended exactly when the content was longer,
newlines then replaced by spaces (`specPreview` spells out the claim); its
length is at most `MAX_PREVIEW_LENGTH + 3` and it contains no newline. -/
theorem C5_preview_spec (c : String) :
    generate_preview c = specPreview c ∧
    (generate_preview c).data.length ≤ Config.MAX_PREVIEW_LENGTH + 3 ∧
    (generate_preview c).data.all (fun ch => ch != '\n') = true := by
  refine ⟨rfl, ?_, ?_⟩
  · unfold generate_preview
    have hd : "...".data.length = 3 := rfl
    split
    · simp only [String.data, List.length_map, List.length_append,
        List.length_take, hd]
      omega
    · simp only [String.data, List.length_map, List.length_take]
      omega
  · unfold generate_preview
    simp only [String.data, List.all_eq_true]
    intro ch hch
    rw [List.mem_map] at hch
    obtain ⟨a, _, rfl⟩ := hch
    by_cases ha : a = '\n' <;> simp [ha]

/-! ### C6: pagination -/

/-- Taking at least one element preserves the head. -/
theorem head?_take (l : List Row) (n : Nat) : (l.take (n + 1)).head? = l.head? := by
  cases l <;> rfl

/-- C6, counterexample: the claim quantifies over **every** limit, but
SQLite reads a negative `LIMIT` as "no limit": on a one-row store,
`get_all_items` with limit `-1` returns the row instead of at most `-1`
records. -/
theorem C6_negative_limit_counterexample :
    get_all_items sampleDB1 (-1) 0 = [sampleRow1] ∧
    decide (((get_all_items sampleDB1 (-1) 0).length : Int) ≤ -1) = false := by
  decide

/-- C6, amended: for **nonnegative** limit and offset and a well-formed
store, `get_all_items` returns the timestamp-descending rows with `offset`
skipped and at most `limit` kept (without mutating the store, which the
purely functional reading makes implicit); pages `(5,0)` and `(5,5)`
partition the newest ten records into disjoint halves and page `(5,0)`
starts at the most recent record. -/
theorem C6_get_all_items_paged (db : DB) (limit offset : Int)
    (hWF : WF db) (hl : 0 ≤ limit) (ho : 0 ≤ offset) :
    get_all_items db limit offset =
      ((byTimestampDesc db).drop offset.toNat).take limit.toNat ∧
    (get_all_items db limit offset).length ≤ limit.toNat ∧
    (get_all_items db limit offset).Pairwise
      (fun a b => b.timestamp < a.timestamp) ∧
    get_all_items db 5 0 ++ get_all_items db 5 5 = (byTimestampDesc db).take 10 ∧
    (∀ a ∈ get_all_items db 5 0, ∀ b ∈ get_all_items db 5 5, a ≠ b) ∧
    (get_all_items db 5 0).head? = (byTimestampDesc db).head? := by
  have hpage : ∀ (l o : Int), 0 ≤ l →
      get_all_items db l o = ((byTimestampDesc db).drop o.toNat).take l.toNat := by
    intro l o hl0
    unfold get_all_items
    rw [if_neg (not_lt.2 hl0)]
  have hc4 : get_all_items db 5 0 ++ get_all_items db 5 5 =
      (byTimestampDesc db).take 10 := by
    rw [hpage 5 0 (by decide), hpage 5 5 (by decide)]
    show (byTimestampDesc db).take 5 ++ ((byTimestampDesc db).drop 5).take 5 =
      (byTimestampDesc db).take 10
    rw [← List.take_add]
  refine ⟨hpage limit offset hl, ?_, ?_, hc4, ?_, ?_⟩
  · rw [hpage limit offset hl]
    exact List.length_take_le _ _
  · rw [hpage limit offset hl]
    exact List.Pairwise.sublist
      ((List.take_sublist _ _).trans (List.drop_sublist _ _))
      (byTimestampDesc_sorted db hWF)
  · have h10 : ((byTimestampDesc db).take 10).Pairwise
        (fun a b => b.timestamp < a.timestamp) :=
      List.Pairwise.sublist (List.take_sublist _ _) (byTimestampDesc_sorted db hWF)
    rw [← hc4, List.pairwise_append] at h10
    intro a ha b hb heq
    have hlt := h10.2.2 a ha b hb
    rw [heq] at hlt
    exact lt_irrefl _ hlt
  · rw [hpage 5 0 (by decide)]
    show ((byTimestampDesc db).take 5).head? = (byTimestampDesc db).head?
    exact head?_take (byTimestampDesc db) 4

/-- C6, witness: on the two-row sample store, page `(1,1)` holds exactly the
older record and respects the cap. -/
theorem C6_get_all_items_paged_witness :
    get_all_items sampleDB2 1 1 = [sampleRow1] ∧
    (get_all_items sampleDB2 1 1).length ≤ (1 : Int).toNat := by
  have h := C6_get_all_items_paged sampleDB2 1 1 WF_sampleDB2 (by decide) (by decide)
  refine ⟨?_, h.2.1⟩
  rw [h.1]
  decide

/-! ### C7: favourite toggling -/

/-- C7: toggling an existing record flips its boolean flag and returns the
new value, so a second toggle returns the negation; toggling an absent id
returns `false` and leaves the whole state unchanged. -/
theorem C7_toggle_favorite_spec (db : DB) (i : Nat) (hWF : WF db) :
    (∀ r ∈ db.rows, r.id = i →
      (toggle_favorite db i).1 = decide (r.is_favorite = 0) ∧
      (toggle_favorite (toggle_favorite db i).2 i).1 =
        !((toggle_favorite db i).1)) ∧
    ((∀ r ∈ db.rows, r.id ≠ i) → toggle_favorite db i = (false, db)) := by
  constructor
  · intro r hr hid
    have hnd := WF_ids_distinct db hWF
    have hfav := (hWF.2 r hr).2.2
    have h1 := toggle_found db i r hnd hr hid
    have e1 : (toggle_favorite db i).1 = ((1 - r.is_favorite) != 0) := by rw [h1]
    constructor
    · rw [e1]
      rcases hfav with h | h <;> rw [h] <;> decide
    · have hdb2 := toggle_snd db i
      have hr2 : flipRow r ∈ toggledRows db i := by
        unfold toggledRows
        rw [List.mem_map]
        exact ⟨r, hr, by rw [if_pos hid]⟩
      have hnd2 : (toggledRows db i).Pairwise (fun a b => a.id ≠ b.id) := by
        unfold toggledRows
        rw [List.pairwise_map]
        simp only [toggleFn_id]
        exact hnd
      have hid2 : (flipRow r).id = i := hid
      have h2 := toggle_found ⟨toggledRows db i, db.nextId, db.clock⟩ i
        (flipRow r) hnd2 hr2 hid2
      rw [hdb2, h2, e1]
      show ((1 - (1 - r.is_favorite)) != 0) = !((1 - r.is_favorite) != 0)
      rcases hfav with h | h <;> rw [h] <;> decide
  · intro h
    exact toggle_missing db i h

/-- C7, witness: on the one-row sample store, toggling id 1 returns `true`,
toggling it again returns `false`, and toggling the absent id 2 returns
`false` with the state unchanged. -/
theorem C7_toggle_favorite_spec_witness :
    (toggle_favorite sampleDB1 1).1 = true ∧
    (toggle_favorite (toggle_favorite sampleDB1 1).2 1).1 = false ∧
    toggle_favorite sampleDB1 2 = (false, sampleDB1) := by
  have h1 := C7_toggle_favorite_spec sampleDB1 1 WF_sampleDB1
  have h2 := C7_toggle_favorite_spec sampleDB1 2 WF_sampleDB1
  obtain ⟨ha, hb⟩ := h1.1 sampleRow1 (by decide) (by decide)
  refine ⟨?_, ?_, h2.2 (by decide)⟩
  · rw [ha]
    decide
  · rw [hb, ha]
    decide

/-! ### C8: statistics -/

/-- C8: `by_type` holds exactly one entry per content type present among the
rows, each with its positive count, and the counts sum to `total_items`. -/
theorem C8_statistics_by_type (db : DB) :
    (get_statistics db).total_items = db.rows.length ∧
    ((get_statistics db).by_type.map (fun p => p.2)).sum =
      (get_statistics db).total_items ∧
    (∀ t n, (t, n) ∈ (get_statistics db).by_type →
      n = db.rows.countP (fun r => r.content_type == t) ∧ 0 < n) ∧
    (∀ t : String, (∃ n, (t, n) ∈ (get_statistics db).by_type) ↔
      ∃ r ∈ db.rows, r.content_type = t) := by
  have hcount : ∀ t : String,
      db.rows.countP (fun r => r.content_type == t) =
      (db.rows.map (fun r => r.content_type)).count t := by
    intro t
    show db.rows.countP (fun r => r.content_type == t) =
      (db.rows.map (fun r => r.content_type)).countP (fun x => x == t)
    rw [List.countP_map]
    rfl
  have hby : (get_statistics db).by_type =
      ((db.rows.map (fun r => r.content_type)).dedup).map
        (fun t => (t, db.rows.countP (fun r => r.content_type == t))) := rfl
  refine ⟨rfl, ?_, ?_, ?_⟩
  · rw [hby, List.map_map]
    have hcg : ((db.rows.map (fun r => r.content_type)).dedup).map
        ((fun p : String × Nat => p.2) ∘
          (fun t => (t, db.rows.countP (fun r => r.content_type == t)))) =
        ((db.rows.map (fun r => r.content_type)).dedup).map
          (fun t => (db.rows.map (fun r => r.content_type)).count t) :=
      List.map_congr_left (fun t _ => hcount t)
    rw [hcg, List.sum_map_count_dedup_eq_length, List.length_map]
    rfl
  · intro t n htn
    rw [hby, List.mem_map] at htn
    obtain ⟨a, ha, hpair⟩ := htn
    injection hpair with h1 h2
    constructor
    · rw [← h2, h1]
    · rw [← h2, h1, hcount t]
      exact List.count_pos_iff.2 (List.mem_dedup.1 (h1 ▸ ha))
  · intro t
    constructor
    · rintro ⟨n, htn⟩
      rw [hby, List.mem_map] at htn
      obtain ⟨a, ha, hpair⟩ := htn
      injection hpair with h1 _
      exact List.mem_map.1 (List.mem_dedup.1 (h1 ▸ ha))
    · rintro ⟨r, hr, hct⟩
      have hmem : t ∈ db.rows.map (fun r => r.content_type) :=
        List.mem_map.2 ⟨r, hr, hct⟩
      refine ⟨db.rows.countP (fun r => r.content_type == t), ?_⟩
      rw [hby, List.mem_map]
      exact ⟨t, List.mem_dedup.2 hmem, rfl⟩

/-- C8, witness: on the two-row sample store the counts sum to the total. -/
theorem C8_statistics_by_type_witness :
    (get_statistics sampleDB2).total_items = sampleDB2.rows.length ∧
    ((get_statistics sampleDB2).by_type.map (fun p => p.2)).sum =
      (get_statistics sampleDB2).total_items := by
  have h := C8_statistics_by_type sampleDB2
  exact ⟨h.1, h.2.1⟩

/-! ### C9: id freshness -/

/-- C9: along every trace of public operations from the fresh store —
deletions and clears included — the ids handed out by successful inserts
strictly increase, so an id is never reassigned. -/
theorem C9_ids_strictly_increasing (ops : List Op) :
    (assignedIds initDB ops).Pairwise (fun a b => a < b) :=
  (assignedIds_spec ops initDB).1

/-! ### C10: the favourite flag is boolean -/

/-- C10: in every state reachable from the fresh store through the public
operations, every row's `is_favorite` is 0 or 1. -/
theorem C10_is_favorite_boolean (ops : List Op) (r : Row)
    (hr : r ∈ (run initDB ops).rows) :
    r.is_favorite = 0 ∨ r.is_favorite = 1 :=
  ((WF_run ops initDB WF_initDB).2 r hr).2.2

/-- C10, witness: after one insert, the single stored row carries the flag
value 0. -/
theorem C10_is_favorite_boolean_witness :
    (⟨1, "x", "text", 0, 1, "x", 0, 0⟩ : Row) ∈
      (run initDB [Op.add "x" true]).rows ∧
    ((⟨1, "x", "text", 0, 1, "x", 0, 0⟩ : Row).is_favorite = 0 ∨
      (⟨1, "x", "text", 0, 1, "x", 0, 0⟩ : Row).is_favorite = 1) :=
  ⟨by decide, C10_is_favorite_boolean [Op.add "x" true] _ (by decide)⟩

end Clipboard

